import Mathlib

/-!
Shallow embedding of the chip circuit simulator in src/project2.cpp.

Modelling conventions:
- C++ pointers to chips become indices (Nat) into the registry list;
  a null pointer becomes Option.none.
- The C++ double values become rationals (Rat); the claims under study are
  structural dataflow facts, not rounding facts.
- Console output becomes a list of inductive output lines.
- Undefined behaviour (null-pointer dereference, the unbounded recursion a
  cyclic graph would cause) is modelled as Option.none; compute carries a
  fuel argument bounding the recursion depth, and the driver supplies
  fuel (number of chips + 1), enough for every acyclic graph.
-/

namespace ChipSim

/-- Translation of class Chip.  The C++ constructor leaves inputValue and
result uninitialized; Chip.create defaults them to 0, and no theorem in this
file depends on that default. -/
structure Chip where
  chipType : Char
  id : String
  input1 : Option Nat
  input2 : Option Nat
  output : Option Nat
  inputValue : Rat
  result : Rat
  deriving Repr, DecidableEq

/-- The constructor Chip::Chip(type, id): sets type and id, nulls the three
links; inputValue and result are uninitialized in C++ (defaulted to 0 here). -/
def Chip.create (type : Char) (id : String) : Chip :=
  { chipType := type, id := id, input1 := none, input2 := none,
    output := none, inputValue := 0, result := 0 }

/-- Update the chip stored at index i of the registry (out-of-range: no-op). -/
def modifyChip : List Chip → Nat → (Chip → Chip) → List Chip
  | [], _, _ => []
  | c :: rest, 0, f => f c :: rest
  | c :: rest, n + 1, f => c :: modifyChip rest n f

/-- Chip::setInput1(inputChip): input1 := inputChip, then
inputChip->setOutput(this). -/
def setInput1At (chips : List Chip) (self other : Nat) : List Chip :=
  modifyChip (modifyChip chips self (fun c => { c with input1 := some other }))
    other (fun c => { c with output := some self })

/-- Chip::setInput2(inputChip): input2 := inputChip, then
inputChip->setOutput(this). -/
def setInput2At (chips : List Chip) (self other : Nat) : List Chip :=
  modifyChip (modifyChip chips self (fun c => { c with input2 := some other }))
    other (fun c => { c with output := some self })

/-- One line of console output produced while processing commands. -/
inductive OutLine where
  /-- The fixed "Computation Starts " marker line. -/
  | marker : OutLine
  /-- "The output value from this circuit is v". -/
  | resultLine (v : Rat) : OutLine
  /-- "Error: Division by zero in chip id". -/
  | divErr (id : String) : OutLine
  deriving Repr, DecidableEq

/-- Read input->getResult() through an optional link; none on a null or
dangling pointer (null dereference is undefined behaviour in the source). -/
def readOpt (chips : List Chip) : Option Nat → Option Rat
  | none => none
  | some j => (chips.get? j).map Chip.result

/-- The operation dispatch at the tail of Chip::compute(), after both inputs
have been recomputed: s is the registry after the recursive calls, i the index
of the chip being computed, c its (link- and tag-immutable) fields, ds the
diagnostics already emitted by the recursive calls. -/
def applyOp (s : List Chip) (i : Nat) (c : Chip) (ds : List OutLine) :
    Option (List Chip × List OutLine) :=
  if c.chipType = 'A' then
    match readOpt s c.input1, readOpt s c.input2 with
    | some r1, some r2 =>
        some (modifyChip s i (fun x => { x with result := r1 + r2 }), ds)
    | _, _ => none
  else if c.chipType = 'S' then
    match readOpt s c.input1, readOpt s c.input2 with
    | some r1, some r2 =>
        some (modifyChip s i (fun x => { x with result := r1 - r2 }), ds)
    | _, _ => none
  else if c.chipType = 'M' then
    match readOpt s c.input1, readOpt s c.input2 with
    | some r1, some r2 =>
        some (modifyChip s i (fun x => { x with result := r1 * r2 }), ds)
    | _, _ => none
  else if c.chipType = 'D' then
    match readOpt s c.input2 with
    | none => none
    | some r2 =>
      if r2 ≠ 0 then
        match readOpt s c.input1 with
        | none => none
        | some r1 =>
            some (modifyChip s i (fun x => { x with result := r1 / r2 }), ds)
      else
        some (modifyChip s i (fun x => { x with result := 0 }),
          ds ++ [OutLine.divErr c.id])
  else if c.chipType = 'N' then
    match readOpt s c.input1 with
    | none => none
    | some r1 =>
      if r1 ≠ 0 then
        some (modifyChip s i (fun x => { x with result := -r1 }), ds)
      else
        some (s, ds)
  else
    some (s, ds)

/-- Chip::compute() at index i, with fuel bounding the recursion depth.
Input chips copy inputValue into result and return; every other kind first
recomputes input1 (if set) then input2 (if set), then applies its operation. -/
def computeAt : Nat → List Chip → Nat → Option (List Chip × List OutLine)
  | 0, _, _ => none
  | fuel + 1, chips, i =>
    match chips.get? i with
    | none => none
    | some c =>
      if c.chipType = 'I' then
        some (modifyChip chips i (fun x => { x with result := x.inputValue }), [])
      else
        match (match c.input1 with
               | none => some (chips, ([] : List OutLine))
               | some j => computeAt fuel chips j) with
        | none => none
        | some (s1, d1) =>
          match (match c.input2 with
                 | none => some (s1, ([] : List OutLine))
                 | some j => computeAt fuel s1 j) with
          | none => none
          | some (s2, d2) => applyOp s2 i c (d1 ++ d2)

/-- The commands of the main loop ("A", "I", "O" verbs). -/
inductive Command where
  | connect (inputId outputId : String) : Command
  | setInput (chipId : String) (value : Rat) : Command
  | query (chipId : String) : Command
  deriving Repr, DecidableEq

/-- The id scan the Connect command uses: the loop assigns on every match and
never breaks, so the last matching index wins. -/
def lookupLast : List Chip → String → Option Nat
  | [], _ => none
  | c :: rest, s =>
    match lookupLast rest s with
    | some k => some (k + 1)
    | none => if c.id = s then some 0 else none

/-- The id scan the SetInput and QueryOutput commands use: the loop breaks at
the first match, so the first matching index wins. -/
def lookupFirst : List Chip → String → Option Nat
  | [], _ => none
  | c :: rest, s =>
    if c.id = s then some 0 else (lookupFirst rest s).map (· + 1)

/-- The Connect ("A") command: resolve both ids (last match wins), then wire
by the target chip's kind: N/O bind via setInput1; A/S/M/D bind via setInput1
when that slot is empty, else setInput2; any other kind (notably I) matches no
branch and the registry is untouched.  A missing target id, or a missing
upstream id on a branch that calls setInput1/setInput2, dereferences a null
pointer in the source: none. -/
def connectStep (chips : List Chip) (inId outId : String) :
    Option (List Chip) :=
  match lookupLast chips outId with
  | none => none
  | some oi =>
    match chips.get? oi with
    | none => none
    | some oc =>
      if oc.chipType = 'N' ∨ oc.chipType = 'O' then
        match lookupLast chips inId with
        | none => none
        | some ii => some (setInput1At chips oi ii)
      else if oc.chipType = 'A' ∨ oc.chipType = 'S' ∨ oc.chipType = 'M' ∨
          oc.chipType = 'D' then
        match oc.input1 with
        | none =>
          match lookupLast chips inId with
          | none => none
          | some ii => some (setInput1At chips oi ii)
        | some _ =>
          match lookupLast chips inId with
          | none => none
          | some ii => some (setInput2At chips oi ii)
      else
        some chips

/-- The SetInput ("I") command: set inputValue on the first chip whose id
matches (the scan breaks at the first match); no match: no change. -/
def setInputStep (chips : List Chip) (cid : String) (v : Rat) : List Chip :=
  match lookupFirst chips cid with
  | none => chips
  | some n => modifyChip chips n (fun c => { c with inputValue := v })

/-- The QueryOutput ("O") command: print the marker, then scan for the first
chip whose id matches; when found, compute it and report input1's result for
an Output-kind chip, its own result otherwise; when no id matches, only the
marker is printed.  Null input1 on an Output-kind chip is a null dereference
in the source: none. -/
def queryStep (fuel : Nat) (chips : List Chip) (qid : String) :
    Option (List Chip × List OutLine) :=
  match lookupFirst chips qid with
  | none => some (chips, [OutLine.marker])
  | some n =>
    match chips.get? n with
    | none => none
    | some c =>
      match computeAt fuel chips n with
      | none => none
      | some (s, d) =>
        if c.chipType = 'O' then
          match c.input1 with
          | none => none
          | some p =>
            match s.get? p with
            | none => none
            | some cp =>
                some (s, OutLine.marker :: d ++ [OutLine.resultLine cp.result])
        else
          match s.get? n with
          | none => none
          | some cn =>
              some (s, OutLine.marker :: d ++ [OutLine.resultLine cn.result])

/-- Dispatch one command of the main loop.  Queries run compute with fuel
one more than the number of chips, enough depth for every acyclic graph. -/
def runCmd (chips : List Chip) : Command → Option (List Chip × List OutLine)
  | Command.connect a b => (connectStep chips a b).map (fun s => (s, []))
  | Command.setInput cid v => some (setInputStep chips cid v, [])
  | Command.query qid => queryStep (chips.length + 1) chips qid

/-- Run the whole command list, concatenating output. -/
def runCommands : List Chip → List Command → Option (List Chip × List OutLine)
  | chips, [] => some (chips, [])
  | chips, cmd :: rest =>
    match runCmd chips cmd with
    | none => none
    | some (s, out) =>
      match runCommands s rest with
      | none => none
      | some (s2, out2) => some (s2, out ++ out2)

/-- One line of the final connections listing (Chip::display()).  An unset
link prints the "None" sentinel, modelled as Option.none in the id slot. -/
inductive DisplayLine where
  | inputLine (id : String) (outId : Option String) : DisplayLine
  | outputLine (id : String) (in1 : Option String) : DisplayLine
  | otherLine (id : String) (in1 in2 : Option String) (outId : String) :
      DisplayLine
  deriving Repr, DecidableEq

/-- Resolve an optional link for display: an unset link is the sentinel
(some none); a set link must resolve to a chip (a dangling index is
impossible in real runs). -/
def idOf (chips : List Chip) : Option Nat → Option (Option String)
  | none => some none
  | some j => (chips.get? j).map (fun c => some c.id)

/-- Chip::display(): Input kind prints id and output link; Output kind prints
id and input1 link; every other kind prints id, both input links, and
output->getId() with no null guard (null output: none, undefined behaviour). -/
def displayOne (chips : List Chip) (c : Chip) : Option DisplayLine :=
  if c.chipType = 'I' then
    (idOf chips c.output).map (fun o => DisplayLine.inputLine c.id o)
  else if c.chipType = 'O' then
    (idOf chips c.input1).map (fun o => DisplayLine.outputLine c.id o)
  else
    match c.output with
    | none => none
    | some j =>
      match chips.get? j with
      | none => none
      | some cj =>
        match idOf chips c.input1, idOf chips c.input2 with
        | some o1, some o2 => some (DisplayLine.otherLine c.id o1 o2 cj.id)
        | _, _ => none

/-- One display pass over the registry in creation order, printing the chips
the selector accepts. -/
def displayPass (chips : List Chip) (sel : Chip → Bool) :
    List Chip → Option (List DisplayLine)
  | [] => some []
  | c :: rest =>
    if sel c then
      match displayOne chips c with
      | none => none
      | some l => (displayPass chips sel rest).map (fun ls => l :: ls)
    else
      displayPass chips sel rest

/-- The final connections listing of main: a first pass over every chip whose
id is not the hardcoded "O50", then a second pass over every Output-kind
chip, both in creation order. -/
def displayAll (chips : List Chip) : Option (List DisplayLine) :=
  match displayPass chips (fun c => c.id ≠ "O50") chips,
        displayPass chips (fun c => c.chipType = 'O') chips with
  | some l1, some l2 => some (l1 ++ l2)
  | _, _ => none

/-- main builds the registry from the id list: each chip's kind is the first
character of its id (ids are never empty in valid input). -/
def firstChar (s : String) : Char := s.toList.headD 'A'

/-- The initial registry: one chip per id, in input order. -/
def mkChips (ids : List String) : List Chip :=
  ids.map (fun s => Chip.create (firstChar s) s)

/-- The whole program: build the registry, run the commands, then produce the
final connections listing. -/
def run (ids : List String) (cmds : List Command) :
    Option (List Chip × List OutLine × List DisplayLine) :=
  match runCommands (mkChips ids) cmds with
  | none => none
  | some (s, out) =>
    match displayAll s with
    | none => none
    | some ds => some (s, out, ds)

/-! ### Helper lemmas about registry updates -/

theorem modifyChip_length (l : List Chip) (i : Nat) (f : Chip → Chip) :
    (modifyChip l i f).length = l.length := by
  induction l generalizing i with
  | nil => rfl
  | cons a rest ih =>
    cases i with
    | zero => rfl
    | succ n => simpa [modifyChip] using ih n

theorem get?_modifyChip_self (l : List Chip) (i : Nat) (f : Chip → Chip) :
    (modifyChip l i f).get? i = (l.get? i).map f := by
  induction l generalizing i with
  | nil => rfl
  | cons a rest ih =>
    cases i with
    | zero => rfl
    | succ n => simpa [modifyChip] using ih n

theorem get?_modifyChip_ne (l : List Chip) {i j : Nat} (f : Chip → Chip)
    (h : i ≠ j) : (modifyChip l i f).get? j = l.get? j := by
  induction l generalizing i j with
  | nil => rfl
  | cons a rest ih =>
    cases i with
    | zero =>
      cases j with
      | zero => exact absurd rfl h
      | succ m => rfl
    | succ n =>
      cases j with
      | zero => rfl
      | succ m =>
        simpa [modifyChip] using ih (fun hnm => h (congrArg Nat.succ hnm))

/-- Computing an Input chip copies inputValue into result and recurses
nowhere. -/
theorem computeAt_input (fuel : Nat) (chips : List Chip) (j : Nat) (cj : Chip)
    (hj : chips.get? j = some cj) (hI : cj.chipType = 'I') :
    computeAt (fuel + 1) chips j =
      some (modifyChip chips j (fun x => { x with result := x.inputValue }), []) := by
  have hj2 : chips[j]? = some cj := by simpa [List.get?_eq_getElem?] using hj
  simp [computeAt, hj2, hI]

/-- Unfolding compute for a non-Input chip with both inputs set: first
recompute input1, then input2, then dispatch the operation. -/
theorem computeAt_binary (fuel : Nat) (chips : List Chip) (i : Nat) (c : Chip)
    (j k : Nat) (s1 : List Chip) (d1 : List OutLine) (s2 : List Chip)
    (d2 : List OutLine)
    (hc : chips.get? i = some c) (hne : c.chipType ≠ 'I')
    (h1 : c.input1 = some j) (h2 : c.input2 = some k)
    (hj : computeAt fuel chips j = some (s1, d1))
    (hk : computeAt fuel s1 k = some (s2, d2)) :
    computeAt (fuel + 1) chips i = applyOp s2 i c (d1 ++ d2) := by
  simp only [computeAt, hc, h1, h2, hj, hk, hne, if_false, ite_false]

/-- Unfolding compute for a non-Input chip with only input1 set. -/
theorem computeAt_unary (fuel : Nat) (chips : List Chip) (i : Nat) (c : Chip)
    (j : Nat) (s1 : List Chip) (d1 : List OutLine)
    (hc : chips.get? i = some c) (hne : c.chipType ≠ 'I')
    (h1 : c.input1 = some j) (h2 : c.input2 = none)
    (hj : computeAt fuel chips j = some (s1, d1)) :
    computeAt (fuel + 1) chips i = applyOp s1 i c d1 := by
  have : computeAt (fuel + 1) chips i = applyOp s1 i c (d1 ++ []) := by
    simp only [computeAt, hc, h1, h2, hj, hne, if_false, ite_false]
  simpa using this

theorem readOpt_some (s : List Chip) (j : Nat) :
    readOpt s (some j) = (s.get? j).map Chip.result := rfl

theorem applyOp_add (s : List Chip) (i : Nat) (c : Chip) (ds : List OutLine)
    (hty : c.chipType = 'A') (r1 r2 : Rat)
    (h1 : readOpt s c.input1 = some r1) (h2 : readOpt s c.input2 = some r2) :
    applyOp s i c ds =
      some (modifyChip s i (fun x => { x with result := r1 + r2 }), ds) := by
  simp [applyOp, hty, h1, h2]

theorem applyOp_sub (s : List Chip) (i : Nat) (c : Chip) (ds : List OutLine)
    (hty : c.chipType = 'S') (r1 r2 : Rat)
    (h1 : readOpt s c.input1 = some r1) (h2 : readOpt s c.input2 = some r2) :
    applyOp s i c ds =
      some (modifyChip s i (fun x => { x with result := r1 - r2 }), ds) := by
  simp [applyOp, hty, h1, h2]

theorem applyOp_mul (s : List Chip) (i : Nat) (c : Chip) (ds : List OutLine)
    (hty : c.chipType = 'M') (r1 r2 : Rat)
    (h1 : readOpt s c.input1 = some r1) (h2 : readOpt s c.input2 = some r2) :
    applyOp s i c ds =
      some (modifyChip s i (fun x => { x with result := r1 * r2 }), ds) := by
  simp [applyOp, hty, h1, h2]

theorem applyOp_div_zero (s : List Chip) (i : Nat) (c : Chip)
    (ds : List OutLine) (hty : c.chipType = 'D')
    (h2 : readOpt s c.input2 = some 0) :
    applyOp s i c ds =
      some (modifyChip s i (fun x => { x with result := 0 }),
        ds ++ [OutLine.divErr c.id]) := by
  simp [applyOp, hty, h2]

theorem applyOp_div_nz (s : List Chip) (i : Nat) (c : Chip)
    (ds : List OutLine) (hty : c.chipType = 'D') (r1 r2 : Rat)
    (h1 : readOpt s c.input1 = some r1) (h2 : readOpt s c.input2 = some r2)
    (hr2 : r2 ≠ 0) :
    applyOp s i c ds =
      some (modifyChip s i (fun x => { x with result := r1 / r2 }), ds) := by
  simp [applyOp, hty, h1, h2, hr2]

theorem applyOp_neg_zero (s : List Chip) (i : Nat) (c : Chip)
    (ds : List OutLine) (hty : c.chipType = 'N')
    (h1 : readOpt s c.input1 = some 0) :
    applyOp s i c ds = some (s, ds) := by
  simp [applyOp, hty, h1]

theorem applyOp_neg_nz (s : List Chip) (i : Nat) (c : Chip)
    (ds : List OutLine) (hty : c.chipType = 'N') (r1 : Rat)
    (h1 : readOpt s c.input1 = some r1) (hr1 : r1 ≠ 0) :
    applyOp s i c ds =
      some (modifyChip s i (fun x => { x with result := -r1 }), ds) := by
  simp [applyOp, hty, h1, hr1]

/-! ### C1: Add/Subtract/Multiply over Input chips -/

/-- C1: For an Add, Subtract, or Multiply chip whose two inputs are both
wired to Input chips, compute() succeeds, emits no diagnostic, and sets the
chip's result to the sum, difference, or product of the two Input chips'
current inputValue fields.  The registry state is universally quantified, so
the value reported is recomputed fresh from the inputValue fields current at
the time of the call. -/
theorem asm_compute_inputs (fuel : Nat) (chips : List Chip) (i j k : Nat)
    (c cj ck : Chip)
    (hc : chips.get? i = some c)
    (hop : c.chipType = 'A' ∨ c.chipType = 'S' ∨ c.chipType = 'M')
    (h1 : c.input1 = some j) (h2 : c.input2 = some k)
    (hj : chips.get? j = some cj) (hk : chips.get? k = some ck)
    (hjI : cj.chipType = 'I') (hkI : ck.chipType = 'I') :
    ∃ s, computeAt (fuel + 2) chips i = some (s, []) ∧
      (s.get? i).map Chip.result = some
        (if c.chipType = 'A' then cj.inputValue + ck.inputValue
         else if c.chipType = 'S' then cj.inputValue - ck.inputValue
         else cj.inputValue * ck.inputValue) := by
  have hiNotI : c.chipType ≠ 'I' := by
    rcases hop with h | h | h <;> simp [h]
  have hij : i ≠ j := by
    rintro rfl
    rw [hc] at hj
    injection hj with h
    exact hiNotI (by rw [h]; exact hjI)
  have hik : i ≠ k := by
    rintro rfl
    rw [hc] at hk
    injection hk with h
    exact hiNotI (by rw [h]; exact hkI)
  have hji : j ≠ i := fun h => hij h.symm
  have hki : k ≠ i := fun h => hik h.symm
  have hcompJ := computeAt_input fuel chips j cj hj hjI
  obtain ⟨s2, key, hr1, hr2, hi2⟩ :
      ∃ s2, computeAt (fuel + 2) chips i = applyOp s2 i c ([] ++ []) ∧
        readOpt s2 c.input1 = some cj.inputValue ∧
        readOpt s2 c.input2 = some ck.inputValue ∧
        s2.get? i = some c := by
    by_cases hjk : j = k
    · subst hjk
      rw [hj] at hk
      injection hk with hcc
      subst hcc
      refine ⟨_, computeAt_binary (fuel + 1) chips i c j j _ [] _ [] hc hiNotI h1 h2
        hcompJ (computeAt_input fuel _ j
          { cj with result := cj.inputValue } ?_ hjI), ?_, ?_, ?_⟩
      · rw [get?_modifyChip_self, hj]; rfl
      · rw [h1, readOpt_some, get?_modifyChip_self, get?_modifyChip_self, hj]; rfl
      · rw [h2, readOpt_some, get?_modifyChip_self, get?_modifyChip_self, hj]; rfl
      · rw [get?_modifyChip_ne _ _ hji, get?_modifyChip_ne _ _ hji, hc]
    · have hkj : k ≠ j := fun h => hjk h.symm
      have hs1k : (modifyChip chips j
          (fun x => { x with result := x.inputValue })).get? k = some ck := by
        rw [get?_modifyChip_ne _ _ hjk, hk]
      refine ⟨_, computeAt_binary (fuel + 1) chips i c j k _ [] _ [] hc hiNotI h1 h2
        hcompJ (computeAt_input fuel _ k ck hs1k hkI), ?_, ?_, ?_⟩
      · rw [h1, readOpt_some, get?_modifyChip_ne _ _ hkj, get?_modifyChip_self, hj]; rfl
      · rw [h2, readOpt_some, get?_modifyChip_self, hs1k]; rfl
      · rw [get?_modifyChip_ne _ _ hki, get?_modifyChip_ne _ _ hji, hc]
  rcases hop with hA | hS | hM
  · refine ⟨modifyChip s2 i
      (fun x => { x with result := cj.inputValue + ck.inputValue }), ?_, ?_⟩
    · rw [key]; exact applyOp_add s2 i c ([] ++ []) hA _ _ hr1 hr2
    · rw [get?_modifyChip_self, hi2, hA]; simp
  · refine ⟨modifyChip s2 i
      (fun x => { x with result := cj.inputValue - ck.inputValue }), ?_, ?_⟩
    · rw [key]; exact applyOp_sub s2 i c ([] ++ []) hS _ _ hr1 hr2
    · rw [get?_modifyChip_self, hi2, hS]; simp
  · refine ⟨modifyChip s2 i
      (fun x => { x with result := cj.inputValue * ck.inputValue }), ?_, ?_⟩
    · rw [key]; exact applyOp_mul s2 i c ([] ++ []) hM _ _ hr1 hr2
    · rw [get?_modifyChip_self, hi2, hM]; simp

/-- Witness for C1: with I1 = 3 and I2 = 4 the Add chip computes 7; with
I1 changed to 30 in the same wiring, the same call computes 34. -/
theorem asm_compute_inputs_witness :
    (∃ s, computeAt 2
        [⟨'I', "I1", none, none, some 2, 3, 0⟩,
         ⟨'I', "I2", none, none, some 2, 4, 0⟩,
         ⟨'A', "A1", some 0, some 1, none, 0, 0⟩] 2 = some (s, []) ∧
      (s.get? 2).map Chip.result = some 7) ∧
    (∃ s, computeAt 2
        [⟨'I', "I1", none, none, some 2, 30, 0⟩,
         ⟨'I', "I2", none, none, some 2, 4, 0⟩,
         ⟨'A', "A1", some 0, some 1, none, 0, 0⟩] 2 = some (s, []) ∧
      (s.get? 2).map Chip.result = some 34) := by
  constructor
  · obtain ⟨s, h1, h2⟩ := asm_compute_inputs 0
      [⟨'I', "I1", none, none, some 2, 3, 0⟩,
       ⟨'I', "I2", none, none, some 2, 4, 0⟩,
       ⟨'A', "A1", some 0, some 1, none, 0, 0⟩] 2 0 1 _ _ _ rfl (Or.inl rfl)
      rfl rfl rfl rfl rfl rfl
    refine ⟨s, h1, ?_⟩
    rw [h2]; norm_num
  · obtain ⟨s, h1, h2⟩ := asm_compute_inputs 0
      [⟨'I', "I1", none, none, some 2, 30, 0⟩,
       ⟨'I', "I2", none, none, some 2, 4, 0⟩,
       ⟨'A', "A1", some 0, some 1, none, 0, 0⟩] 2 0 1 _ _ _ rfl (Or.inl rfl)
      rfl rfl rfl rfl rfl rfl
    refine ⟨s, h1, ?_⟩
    rw [h2]; norm_num

/-! ### C2: Divide and division by zero -/

/-- C2: For a Divide chip, after recomputing both inputs: when input2's
result is 0, compute() sets the chip's result to 0 and appends exactly one
division-by-zero diagnostic line carrying this chip's id, and still returns
normally; when input2's result is nonzero, it sets the result to the
quotient input1.result / input2.result and appends no diagnostic. -/
theorem divide_compute (fuel : Nat) (chips : List Chip) (i j k : Nat)
    (c cj ck : Chip) (s1 s2 : List Chip) (d1 d2 : List OutLine)
    (hc : chips.get? i = some c) (hty : c.chipType = 'D')
    (h1 : c.input1 = some j) (h2 : c.input2 = some k)
    (hcompJ : computeAt fuel chips j = some (s1, d1))
    (hcompK : computeAt fuel s1 k = some (s2, d2))
    (hcj : s2.get? j = some cj) (hck : s2.get? k = some ck) :
    (ck.result = 0 → computeAt (fuel + 1) chips i =
      some (modifyChip s2 i (fun x => { x with result := 0 }),
        d1 ++ d2 ++ [OutLine.divErr c.id])) ∧
    (ck.result ≠ 0 → computeAt (fuel + 1) chips i =
      some (modifyChip s2 i
          (fun x => { x with result := cj.result / ck.result }),
        d1 ++ d2)) := by
  have hne : c.chipType ≠ 'I' := by simp [hty]
  have key := computeAt_binary fuel chips i c j k s1 d1 s2 d2 hc hne h1 h2
    hcompJ hcompK
  have hr1 : readOpt s2 c.input1 = some cj.result := by
    rw [h1, readOpt_some, hcj]; rfl
  have hr2 : readOpt s2 c.input2 = some ck.result := by
    rw [h2, readOpt_some, hck]; rfl
  constructor
  · intro h0
    rw [key, applyOp_div_zero s2 i c (d1 ++ d2) hty (h0 ▸ hr2)]
  · intro hnz
    rw [key, applyOp_div_nz s2 i c (d1 ++ d2) hty _ _ hr1 hr2 hnz]

/-- Witness for C2: dividing 3 by an Input chip holding 0 forces result 0
with one diagnostic naming D1; dividing 6 by 2 yields 3 with no
diagnostic. -/
theorem divide_compute_witness :
    computeAt 2
      [⟨'I', "I1", none, none, some 2, 3, 0⟩,
       ⟨'I', "I2", none, none, some 2, 0, 0⟩,
       ⟨'D', "D1", some 0, some 1, none, 0, 9⟩] 2 =
      some ([⟨'I', "I1", none, none, some 2, 3, 3⟩,
             ⟨'I', "I2", none, none, some 2, 0, 0⟩,
             ⟨'D', "D1", some 0, some 1, none, 0, 0⟩],
        [OutLine.divErr "D1"]) ∧
    computeAt 2
      [⟨'I', "I1", none, none, some 2, 6, 0⟩,
       ⟨'I', "I2", none, none, some 2, 2, 0⟩,
       ⟨'D', "D1", some 0, some 1, none, 0, 9⟩] 2 =
      some ([⟨'I', "I1", none, none, some 2, 6, 6⟩,
             ⟨'I', "I2", none, none, some 2, 2, 2⟩,
             ⟨'D', "D1", some 0, some 1, none, 0, 3⟩], []) := by
  constructor
  · exact (divide_compute 1
      [⟨'I', "I1", none, none, some 2, 3, 0⟩,
       ⟨'I', "I2", none, none, some 2, 0, 0⟩,
       ⟨'D', "D1", some 0, some 1, none, 0, 9⟩] 2 0 1 _ _ _ _ _ _ _
      rfl rfl rfl rfl rfl rfl rfl rfl).1 rfl
  · have h := (divide_compute 1
      [⟨'I', "I1", none, none, some 2, 6, 0⟩,
       ⟨'I', "I2", none, none, some 2, 2, 0⟩,
       ⟨'D', "D1", some 0, some 1, none, 0, 9⟩] 2 0 1 _ _ _ _ _ _ _
      rfl rfl rfl rfl rfl rfl rfl rfl).2 (by norm_num)
    rw [h]; norm_num [modifyChip]

/-! ### C4: the Negate stale-result quirk -/

/-- C4: For a Negate chip, after recomputing input1: when input1's result is
0, compute() performs no write at all (the final registry is exactly the one
the recursive call produced, so the chip's result field keeps its prior,
stale value); when input1's result is nonzero, the result becomes its
negation. -/
theorem negate_compute (fuel : Nat) (chips : List Chip) (i j : Nat)
    (c cj : Chip) (s1 : List Chip) (d1 : List OutLine)
    (hc : chips.get? i = some c) (hty : c.chipType = 'N')
    (h1 : c.input1 = some j) (h2 : c.input2 = none)
    (hcompJ : computeAt fuel chips j = some (s1, d1))
    (hcj : s1.get? j = some cj) :
    (cj.result = 0 → computeAt (fuel + 1) chips i = some (s1, d1)) ∧
    (cj.result ≠ 0 → computeAt (fuel + 1) chips i =
      some (modifyChip s1 i (fun x => { x with result := -cj.result }), d1)) := by
  have hne : c.chipType ≠ 'I' := by simp [hty]
  have key := computeAt_unary fuel chips i c j s1 d1 hc hne h1 h2 hcompJ
  have hr1 : readOpt s1 c.input1 = some cj.result := by
    rw [h1, readOpt_some, hcj]; rfl
  constructor
  · intro h0
    rw [key, applyOp_neg_zero s1 i c d1 hty (h0 ▸ hr1)]
  · intro hnz
    rw [key, applyOp_neg_nz s1 i c d1 hty _ hr1 hnz]

/-- Witness for C4: N1 holds stale result 5; its Input chip computes to 0,
and N1's result stays 5 after compute(). -/
theorem negate_compute_witness :
    computeAt 2
      [⟨'I', "I1", none, none, some 1, 0, 7⟩,
       ⟨'N', "N1", some 0, none, none, 0, 5⟩] 1 =
      some ([⟨'I', "I1", none, none, some 1, 0, 0⟩,
             ⟨'N', "N1", some 0, none, none, 0, 5⟩], []) :=
  (negate_compute 1
    [⟨'I', "I1", none, none, some 1, 0, 7⟩,
     ⟨'N', "N1", some 0, none, none, 0, 5⟩] 1 0 _ _ _ _
    rfl rfl rfl rfl rfl rfl).1 rfl

/-! ### C7: setInput1/setInput2 binding and the output back-reference -/

/-- C7: setInput1 (respectively setInput2) on chip a with upstream chip b
binds b into a's input1 (respectively input2) slot, sets b's output
back-reference to a, and touches no other chip and no other field.  The
prior contents of the slots are unconstrained, so later calls overwrite and
the downstream output link is last-writer-wins. -/
theorem setInput_spec (chips : List Chip) (a b : Nat) (ca cb : Chip)
    (ha : chips.get? a = some ca) (hb : chips.get? b = some cb)
    (hab : a ≠ b) :
    (setInput1At chips a b).get? a = some { ca with input1 := some b } ∧
    (setInput1At chips a b).get? b = some { cb with output := some a } ∧
    (∀ m, m ≠ a → m ≠ b → (setInput1At chips a b).get? m = chips.get? m) ∧
    (setInput2At chips a b).get? a = some { ca with input2 := some b } ∧
    (setInput2At chips a b).get? b = some { cb with output := some a } ∧
    (∀ m, m ≠ a → m ≠ b → (setInput2At chips a b).get? m = chips.get? m) := by
  have hba : b ≠ a := fun h => hab h.symm
  refine ⟨?_, ?_, ?_, ?_, ?_, ?_⟩
  · rw [setInput1At, get?_modifyChip_ne _ _ hba, get?_modifyChip_self, ha]; rfl
  · rw [setInput1At, get?_modifyChip_self, get?_modifyChip_ne _ _ hab, hb]; rfl
  · intro m hma hmb
    rw [setInput1At, get?_modifyChip_ne _ _ (fun h => hmb h.symm),
      get?_modifyChip_ne _ _ (fun h => hma h.symm)]
  · rw [setInput2At, get?_modifyChip_ne _ _ hba, get?_modifyChip_self, ha]; rfl
  · rw [setInput2At, get?_modifyChip_self, get?_modifyChip_ne _ _ hab, hb]; rfl
  · intro m hma hmb
    rw [setInput2At, get?_modifyChip_ne _ _ (fun h => hmb h.symm),
      get?_modifyChip_ne _ _ (fun h => hma h.symm)]

/-! ### C5: Connect dispatch by target kind -/

/-- C5: For an Add/Subtract/Multiply/Divide target chip, a Connect command
binds the upstream chip into input1 when that slot is empty and into input2
when input1 is already occupied; for a Negate or Output target it always
binds into input1. -/
theorem connect_binding (chips : List Chip) (inId outId : String)
    (oi ii : Nat) (oc : Chip)
    (hlookO : lookupLast chips outId = some oi)
    (hoc : chips.get? oi = some oc)
    (hlookI : lookupLast chips inId = some ii)
    (hne : oi ≠ ii) :
    ((oc.chipType = 'A' ∨ oc.chipType = 'S' ∨ oc.chipType = 'M' ∨
        oc.chipType = 'D') →
      (oc.input1 = none →
        ∃ s, connectStep chips inId outId = some s ∧
          s.get? oi = some { oc with input1 := some ii }) ∧
      (∀ p, oc.input1 = some p →
        ∃ s, connectStep chips inId outId = some s ∧
          s.get? oi = some { oc with input2 := some ii })) ∧
    ((oc.chipType = 'N' ∨ oc.chipType = 'O') →
      ∃ s, connectStep chips inId outId = some s ∧
        s.get? oi = some { oc with input1 := some ii }) := by
  have hiioi : ii ≠ oi := fun h => hne h.symm
  constructor
  · intro hasmd
    have hnotNO : ¬(oc.chipType = 'N' ∨ oc.chipType = 'O') := by
      rcases hasmd with h | h | h | h <;> simp [h]
    constructor
    · intro hin1
      refine ⟨setInput1At chips oi ii, ?_, ?_⟩
      · simp only [connectStep, hlookO, hoc, hnotNO, hasmd, hin1, hlookI,
          if_true, if_false, ite_true, ite_false, iff_true, iff_false,
          eq_self_iff_true, not_false_iff]
      · rw [setInput1At, get?_modifyChip_ne _ _ hiioi, get?_modifyChip_self,
          hoc]; rfl
    · intro p hin1
      refine ⟨setInput2At chips oi ii, ?_, ?_⟩
      · simp only [connectStep, hlookO, hoc, hnotNO, hasmd, hin1, hlookI,
          if_true, if_false, ite_true, ite_false, iff_true, iff_false,
          eq_self_iff_true, not_false_iff]
      · rw [setInput2At, get?_modifyChip_ne _ _ hiioi, get?_modifyChip_self,
          hoc]; rfl
  · intro hNO
    refine ⟨setInput1At chips oi ii, ?_, ?_⟩
    · simp only [connectStep, hlookO, hoc, hNO, hlookI, if_true, ite_true,
        iff_true, eq_self_iff_true]
    · rw [setInput1At, get?_modifyChip_ne _ _ hiioi, get?_modifyChip_self,
        hoc]; rfl

/-! ### C8: Connect with an Input-kind target -/

/-- C8: A Connect command whose resolved target chip is of Input kind
matches no wiring branch: the whole registry is returned unchanged (no slot
bound, no output reference changed). -/
theorem connect_input_target (chips : List Chip) (inId outId : String)
    (oi : Nat) (oc : Chip)
    (hlookO : lookupLast chips outId = some oi)
    (hoc : chips.get? oi = some oc)
    (hty : oc.chipType = 'I') :
    connectStep chips inId outId = some chips := by
  have hoc2 : chips[oi]? = some oc := by
    simpa [List.get?_eq_getElem?] using hoc
  simp [connectStep, hlookO, hoc2, hty]

/-- Witness for C7: both slots of A1 and the output of I1 are already
occupied, and the new binding overwrites them. -/
theorem setInput_spec_witness :
    (setInput1At [⟨'I', "I1", none, none, some 9, 1, 0⟩,
        ⟨'A', "A1", some 7, some 8, none, 0, 0⟩] 1 0).get? 1 =
      some ⟨'A', "A1", some 0, some 8, none, 0, 0⟩ ∧
    (setInput1At [⟨'I', "I1", none, none, some 9, 1, 0⟩,
        ⟨'A', "A1", some 7, some 8, none, 0, 0⟩] 1 0).get? 0 =
      some ⟨'I', "I1", none, none, some 1, 1, 0⟩ ∧
    (setInput2At [⟨'I', "I1", none, none, some 9, 1, 0⟩,
        ⟨'A', "A1", some 7, some 8, none, 0, 0⟩] 1 0).get? 1 =
      some ⟨'A', "A1", some 7, some 0, none, 0, 0⟩ ∧
    (setInput2At [⟨'I', "I1", none, none, some 9, 1, 0⟩,
        ⟨'A', "A1", some 7, some 8, none, 0, 0⟩] 1 0).get? 0 =
      some ⟨'I', "I1", none, none, some 1, 1, 0⟩ := by
  have h := setInput_spec [⟨'I', "I1", none, none, some 9, 1, 0⟩,
    ⟨'A', "A1", some 7, some 8, none, 0, 0⟩] 1 0 _ _ rfl rfl (by decide)
  exact ⟨h.1, h.2.1, h.2.2.2.1, h.2.2.2.2.1⟩

/-- Witness for C5: the first Connect naming A1 fills input1, the second
fills input2, and a Connect naming N1 fills input1. -/
theorem connect_binding_witness :
    (∃ s, connectStep [⟨'I', "I1", none, none, none, 0, 0⟩,
        ⟨'A', "A1", none, none, none, 0, 0⟩] "I1" "A1" = some s ∧
      s.get? 1 = some ⟨'A', "A1", some 0, none, none, 0, 0⟩) ∧
    (∃ s, connectStep [⟨'I', "I1", none, none, some 1, 0, 0⟩,
        ⟨'A', "A1", some 0, none, none, 0, 0⟩,
        ⟨'I', "I2", none, none, none, 0, 0⟩] "I2" "A1" = some s ∧
      s.get? 1 = some ⟨'A', "A1", some 0, some 2, none, 0, 0⟩) ∧
    (∃ s, connectStep [⟨'I', "I1", none, none, none, 0, 0⟩,
        ⟨'N', "N1", none, none, none, 0, 0⟩] "I1" "N1" = some s ∧
      s.get? 1 = some ⟨'N', "N1", some 0, none, none, 0, 0⟩) := by
  refine ⟨?_, ?_, ?_⟩
  · exact ((connect_binding [⟨'I', "I1", none, none, none, 0, 0⟩,
      ⟨'A', "A1", none, none, none, 0, 0⟩] "I1" "A1" 1 0 _ rfl rfl rfl
      (by decide)).1 (Or.inl rfl)).1 rfl
  · exact ((connect_binding [⟨'I', "I1", none, none, some 1, 0, 0⟩,
      ⟨'A', "A1", some 0, none, none, 0, 0⟩,
      ⟨'I', "I2", none, none, none, 0, 0⟩] "I2" "A1" 1 2 _ rfl rfl rfl
      (by decide)).1 (Or.inl rfl)).2 0 rfl
  · exact (connect_binding [⟨'I', "I1", none, none, none, 0, 0⟩,
      ⟨'N', "N1", none, none, none, 0, 0⟩] "I1" "N1" 1 0 _ rfl rfl rfl
      (by decide)).2 (Or.inl rfl)

/-- Witness for C8: connecting I2 into the Input chip I1 leaves the
registry exactly as it was. -/
theorem connect_input_target_witness :
    connectStep [⟨'I', "I1", none, none, none, 0, 0⟩,
        ⟨'I', "I2", none, none, none, 0, 0⟩] "I2" "I1" =
      some [⟨'I', "I1", none, none, none, 0, 0⟩,
        ⟨'I', "I2", none, none, none, 0, 0⟩] :=
  connect_input_target _ "I2" "I1" 0 _ rfl rfl rfl

theorem lookupFirst_of_first (chips : List Chip) (cid : String) (n : Nat)
    (c : Chip) (hc : chips.get? n = some c) (hid : c.id = cid)
    (hfirst : ∀ m cm, m < n → chips.get? m = some cm → cm.id ≠ cid) :
    lookupFirst chips cid = some n := by
  induction chips generalizing n with
  | nil => simp at hc
  | cons a rest ih =>
    cases n with
    | zero =>
      have hac : a = c := by simpa using hc
      subst hac
      simp [lookupFirst, hid]
    | succ m =>
      have ha : a.id ≠ cid := hfirst 0 a (Nat.succ_pos m) rfl
      have hrest : lookupFirst rest cid = some m := by
        refine ih m (by simpa using hc) ?_
        intro m2 cm hm2 hcm
        exact hfirst (m2 + 1) cm (Nat.succ_lt_succ hm2) (by simpa using hcm)
      simp [lookupFirst, ha, hrest]

/-! ### C9: SetInput hits the first id match, regardless of kind -/

/-- C9: A SetInput command sets the inputValue field of the chip at the
first (creation-order) index whose id matches — no hypothesis constrains
that chip's kind — and every other chip, and every other field of that
chip, is unchanged. -/
theorem setInput_first_match (chips : List Chip) (cid : String) (v : Rat)
    (n : Nat) (c : Chip)
    (hc : chips.get? n = some c) (hid : c.id = cid)
    (hfirst : ∀ m cm, m < n → chips.get? m = some cm → cm.id ≠ cid) :
    (setInputStep chips cid v).get? n = some { c with inputValue := v } ∧
    ∀ m, m ≠ n → (setInputStep chips cid v).get? m = chips.get? m := by
  have hlook := lookupFirst_of_first chips cid n c hc hid hfirst
  constructor
  · simp only [setInputStep, hlook]
    rw [get?_modifyChip_self, hc]; rfl
  · intro m hmn
    simp only [setInputStep, hlook]
    rw [get?_modifyChip_ne _ _ (fun h => hmn h.symm)]

/-- Witness for C9: two chips share id X; the first is an Add chip, and it
(not the Input chip after it) receives the inputValue. -/
theorem setInput_first_match_witness :
    (setInputStep [⟨'A', "X", none, none, none, 0, 0⟩,
        ⟨'I', "X", none, none, none, 0, 0⟩] "X" 9).get? 0 =
      some ⟨'A', "X", none, none, none, 9, 0⟩ ∧
    (setInputStep [⟨'A', "X", none, none, none, 0, 0⟩,
        ⟨'I', "X", none, none, none, 0, 0⟩] "X" 9).get? 1 =
      some ⟨'I', "X", none, none, none, 0, 0⟩ := by
  have h := setInput_first_match [⟨'A', "X", none, none, none, 0, 0⟩,
    ⟨'I', "X", none, none, none, 0, 0⟩] "X" 9 0 _ rfl rfl
    (fun m cm hm _ => absurd hm (Nat.not_lt_zero m))
  exact ⟨h.1, h.2 1 (by decide)⟩

theorem lookupFirst_of_absent (chips : List Chip) (cid : String)
    (h : ∀ x ∈ chips, x.id ≠ cid) : lookupFirst chips cid = none := by
  induction chips with
  | nil => rfl
  | cons a rest ih =>
    have ha : a.id ≠ cid := h a (List.mem_cons_self a rest)
    simp [lookupFirst, ha, ih (fun x hx => h x (List.mem_cons_of_mem a hx))]

/-! ### C10: QueryOutput with an unknown id -/

/-- C10: A QueryOutput command whose id matches no chip in the registry
still emits the marker line, emits no result line, computes nothing and
leaves the registry unchanged. -/
theorem query_missing_id (fuel : Nat) (chips : List Chip) (qid : String)
    (h : ∀ x ∈ chips, x.id ≠ qid) :
    queryStep fuel chips qid = some (chips, [OutLine.marker]) := by
  have hlook := lookupFirst_of_absent chips qid h
  simp [queryStep, hlook]

/-- Witness for C10: querying the unknown id ZZ prints only the marker. -/
theorem query_missing_id_witness :
    queryStep 1 [⟨'I', "I1", none, none, none, 3, 0⟩] "ZZ" =
      some ([⟨'I', "I1", none, none, none, 3, 0⟩], [OutLine.marker]) :=
  query_missing_id 1 _ "ZZ" (by decide)

/-! ### C6: QueryOutput reporting -/

/-- C6: A QueryOutput command on a chip found in the registry emits the
marker line before the result line; the named chip is computed, and the
value reported is input1's result for an Output-kind chip (not the chip's
own result field) and the chip's own result otherwise. -/
theorem query_reporting (fuel : Nat) (chips : List Chip) (qid : String)
    (n : Nat) (c : Chip) (s : List Chip) (d : List OutLine)
    (hn : lookupFirst chips qid = some n)
    (hc : chips.get? n = some c)
    (hcomp : computeAt fuel chips n = some (s, d)) :
    (c.chipType = 'O' → ∀ p cp, c.input1 = some p → s.get? p = some cp →
      queryStep fuel chips qid =
        some (s, OutLine.marker :: d ++ [OutLine.resultLine cp.result])) ∧
    (c.chipType ≠ 'O' → ∀ cn, s.get? n = some cn →
      queryStep fuel chips qid =
        some (s, OutLine.marker :: d ++ [OutLine.resultLine cn.result])) := by
  constructor
  · intro hO p cp hp hcp
    simp only [queryStep, hn, hc, hcomp, hO, hp, hcp, if_true, ite_true,
      eq_self_iff_true]
  · intro hNO cn hcn
    simp only [queryStep, hn, hc, hcomp, hNO, hcn, if_false, ite_false]

/-- Witness for C6: querying the Output chip O1 (whose own stale result is
9) reports 3, the result of its input1; querying the non-Output chip I1
reports its own result 3.  The marker precedes the result line in both. -/
theorem query_reporting_witness :
    queryStep 2 [⟨'I', "I1", none, none, some 1, 3, 0⟩,
        ⟨'O', "O1", some 0, none, none, 0, 9⟩] "O1" =
      some ([⟨'I', "I1", none, none, some 1, 3, 3⟩,
        ⟨'O', "O1", some 0, none, none, 0, 9⟩],
        [OutLine.marker, OutLine.resultLine 3]) ∧
    queryStep 2 [⟨'I', "I1", none, none, some 1, 3, 0⟩,
        ⟨'O', "O1", some 0, none, none, 0, 9⟩] "I1" =
      some ([⟨'I', "I1", none, none, some 1, 3, 3⟩,
        ⟨'O', "O1", some 0, none, none, 0, 9⟩],
        [OutLine.marker, OutLine.resultLine 3]) := by
  constructor
  · exact (query_reporting 2 [⟨'I', "I1", none, none, some 1, 3, 0⟩,
      ⟨'O', "O1", some 0, none, none, 0, 9⟩] "O1" 1 _ _ _ rfl rfl rfl).1
      rfl 0 _ rfl rfl
  · exact (query_reporting 2 [⟨'I', "I1", none, none, some 1, 3, 0⟩,
      ⟨'O', "O1", some 0, none, none, 0, 9⟩] "I1" 0 _ _ _ rfl rfl rfl).2
      (by decide) _ rfl

/-! ### C3: the final connections listing -/

/-- C3 (refuting evaluation): the first display pass skips only the
hardcoded id "O50", so an Output-kind chip named O1 is printed there and
again in the final Output pass — its line appears twice, contradicting the
claim that Output chips are printed only in the final pass and no line is
printed more than once.  A chip actually named O50 is printed once. -/
theorem display_duplicates_output_chip :
    displayAll (mkChips ["O1"]) =
      some [DisplayLine.outputLine "O1" none,
        DisplayLine.outputLine "O1" none] ∧
    displayAll (mkChips ["O50"]) =
      some [DisplayLine.outputLine "O50" none] := by
  exact ⟨rfl, rfl⟩

end ChipSim
